import Mathlib

/-!
Verification of the slashing core of the repository: the `Fraction` severity
type, the `StakingSlasher` overflow-safe fixed-point conversion layer
(`srml/staking/src/slash.rs`), and the `MisconductModule` orchestration
(`srml/slashing/src/lib.rs`).

Modelling conventions:
* Machine integers are `Nat` with explicit `% 2 ^ w` where the code can wrap
  or truncate.  The configured balance type is `u64` (the `Test` runtime in
  `srml/slashing/src/lib.rs`, `type Balance = u64`), the extended domain is
  `u128` (`type ExtendedBalance = u128` in `slash.rs`), and the severity type
  is `u64` (`type Severity = u64` in the test runtime).
* A Rust panic (integer division by zero; release-mode `*` wraps and is
  modelled as wrapping) is modelled by `Option`: `none` means the state
  transition aborts.
* The staking ledger and the misconduct policy are external collaborators,
  embedded as records of functions (`Ledger`, `MisconductPolicy`) so that
  theorems quantify over every implementation; calls into the collaborators
  are recorded in an explicit `Call` trace.
-/

namespace SubstrateSlashing

/-- Modelled from the spec: `fraction.rs` (declared `mod fraction` in
`srml/slashing/src/lib.rs` line 31) is not among the provided sources.  Per
spec §3/§4.1, `Fraction<T>` is a pure value type with two same-typed numeric
fields named `denominator` and `numerator`, each with a read accessor and no
mutation after construction.  The effective severity ratio is
`denominator / numerator` (field names are swapped relative to mathematical
convention).  Fields are `u64` severity values, modelled as `Nat`. -/
structure Fraction where
  denominator : Nat
  numerator : Nat
  deriving DecidableEq

/-- Maximum value of the extended-precision domain `ExtendedBalance = u128`
(`srml/staking/src/slash.rs` line 22). -/
def u128Max : Nat := 2 ^ 128 - 1

/-- Rust `u128::saturating_mul`: on overflow the product clamps to
`u128::MAX` (`slash.rs` line 40). -/
def saturating_mul (a b : Nat) : Nat := min (a * b) u128Max

/-- Rust `u128::checked_div`: `none` exactly when the divisor is zero
(`slash.rs` line 42). -/
def checked_div (a b : Nat) : Option Nat := if b = 0 then none else some (a / b)

/-- The `to_u128` closure of `StakingSlasher::slash` (`slash.rs` lines
35-36): `Convert<BalanceOf<T>, u64>::convert(b) as ExtendedBalance`.  The
conversion routes through a 64-bit intermediate; the `CurrencyToVoteHandler`
in the sources (`srml/slashing/src/lib.rs` lines 130-137) implements the
wide-to-64 leg as `x as u64`, i.e. truncation mod `2 ^ 64`.  The subsequent
`as u128` is lossless. -/
def to_u128 (b : Nat) : Nat := b % 2 ^ 64

/-- The `to_balance` closure of `StakingSlasher::slash` (`slash.rs` lines
33-34): `Convert<ExtendedBalance, BalanceOf<T>>::convert`, implemented by
`CurrencyToVoteHandler` as `x as u64`: truncation mod `2 ^ 64`. -/
def to_balance (b : Nat) : Nat := b % 2 ^ 64

/-- The staking ledger collaborator (spec §6): `L` is its private state,
`A` the account-id type.  Only the two consumed entry points are exposed:
`slashable_balance` (read-only) and `slash_validator` (the single point of
external mutation; its internal accounting is owned by the ledger, so it is
universally quantified here). -/
structure Ledger (L A : Type) where
  slashable_balance : L → A → Nat
  slash_validator : L → A → Nat → L

namespace StakingSlasher

/-- The slash amount computed by `StakingSlasher::slash`
(`srml/staking/src/slash.rs` lines 30-44): widen the native balance to
`u128` through the 64-bit `CurrencyToVote` intermediate, saturating-multiply
by the `denominator` field, checked-divide by the `numerator` field with
fallback `0` (`unwrap_or(0)`), and narrow the quotient back to the native
balance type. -/
def slash_amount (balance : Nat) (severity : Fraction) : Nat :=
  let b := to_u128 balance
  let d := saturating_mul b severity.denominator
  let n := severity.numerator
  to_balance ((checked_div d n).getD 0)

/-- `StakingSlasher::slash` itself (`slash.rs` lines 30-44): read the
slashable balance, compute the amount and call `slash_validator`. -/
def slash {L A : Type} (led : Ledger L A) (lst : L) (who : A)
    (severity : Fraction) : L :=
  led.slash_validator lst who (slash_amount (led.slashable_balance lst who) severity)

end StakingSlasher

/-- The `Misconduct` trait (`srml/slashing/src/lib.rs` lines 86-103),
embedded as a record of functions over an explicit policy state `S`
(the Rust `&mut self` receiver). -/
structure MisconductPolicy (S A : Type) where
  on_misconduct : S → List A → Nat → Nat → S
  severity : S → Fraction
  as_misconduct_level : S → Fraction → Nat

/-- The `OnEndEra` trait (`srml/slashing/src/lib.rs` lines 106-109):
extends `Misconduct` with the accumulated misbehaving set of the era. -/
structure OnEndEraPolicy (S A : Type) extends MisconductPolicy S A where
  get_misbehaved : S → List A

/-- One call into a collaborator (policy or ledger), recorded so that
frame properties ("this workflow never calls X") are statable. -/
inductive Call (A : Type) where
  | on_misconduct (misbehaved : List A) (validators session_index : Nat)
  | severity_read
  | get_misbehaved_read
  | slashable_balance (who : A)
  | slash_validator (who : A) (amount : Nat)
  | as_misconduct_level_read
  deriving DecidableEq

/-- Native `u64` multiplication as used by `(balance * d)` in
`MisconductModule::rolling_data` (`srml/slashing/src/lib.rs` line 52) and the
era-end `slash` (line 77): plain `*` on `BalanceOf<T> = u64`, which wraps
mod `2 ^ 64` in release builds (debug builds would panic on overflow; the
wrapping semantics is the one under which the code completes). -/
def nativeMul (a b : Nat) : Nat := a * b % 2 ^ 64

/-- Native `u64` division as used by `/ n` in `rolling_data` (line 52) and
the era-end `slash` (line 77): Rust integer division panics when the divisor
is zero; the panic is modelled by `none`. -/
def nativeDiv (a b : Nat) : Option Nat := if b = 0 then none else some (a / b)

/-- The per-validator loop shared by `rolling_data` (lines 48-54) and the
era-end `slash` (lines 73-79): for each validator in the given order, read
its slashable balance, compute `(balance * severity.denominator) /
severity.numerator` in native width, and call `slash_validator`, threading
the ledger state and recording the calls.  `none` models the panic of the
native division when the numerator is zero. -/
def slashLoop {L A : Type} (led : Ledger L A) (sev : Fraction) :
    List A → L → Option (L × List (Call A))
  | [], lst => some (lst, [])
  | who :: rest, lst =>
    match nativeDiv (nativeMul (led.slashable_balance lst who) sev.denominator)
        sev.numerator with
    | none => none
    | some sl =>
      match slashLoop led sev rest (led.slash_validator lst who sl) with
      | none => none
      | some (lst', calls) =>
        some (lst', Call.slashable_balance who :: Call.slash_validator who sl :: calls)

/-- Everything `rolling_data` produces: the updated policy state, the updated
ledger state, the trace of collaborator calls, and the returned misconduct
level. -/
structure RollingOutcome (S L A : Type) where
  state : S
  ledger : L
  trace : List (Call A)
  level : Nat
  deriving DecidableEq

namespace MisconductModule

/-- `MisconductModule::rolling_data` (`srml/slashing/src/lib.rs` lines
42-56): call `on_misconduct`, read the severity once, run the per-validator
slashing loop, and return `as_misconduct_level` of the severity. -/
def rolling_data {S L A : Type} (pol : MisconductPolicy S A) (led : Ledger L A)
    (mis : S) (lst : L) (misbehaved : List A) (validators session_index : Nat) :
    Option (RollingOutcome S L A) :=
  let mis' := pol.on_misconduct mis misbehaved validators session_index
  let sev := pol.severity mis'
  (slashLoop led sev misbehaved lst).map fun p =>
    ⟨mis', p.1,
      Call.on_misconduct misbehaved validators session_index :: Call.severity_read ::
        (p.2 ++ [Call.as_misconduct_level_read]),
      pol.as_misconduct_level mis' sev⟩

/-- `MisconductModule::era_data` (`srml/slashing/src/lib.rs` lines 59-61):
forwards the report to `on_misconduct` and does nothing else.  The ledger
state is threaded unchanged to make the frame property statable. -/
def era_data {S L A : Type} (pol : MisconductPolicy S A) (mis : S) (lst : L)
    (misbehaved : List A) (validators session_index : Nat) :
    S × L × List (Call A) :=
  (pol.on_misconduct mis misbehaved validators session_index, lst,
    [Call.on_misconduct misbehaved validators session_index])

/-- The era-end `MisconductModule::slash` (`srml/slashing/src/lib.rs` lines
64-83): read the severity and the era's misbehaving set from the policy
(taken by shared reference `&T`, hence no updated policy state in the
result), run the per-validator loop, and return `as_misconduct_level`. -/
def slash {S L A : Type} (pol : OnEndEraPolicy S A) (led : Ledger L A)
    (mis : S) (lst : L) : Option (L × List (Call A) × Nat) :=
  let sev := pol.severity mis
  let misbehaved := pol.get_misbehaved mis
  (slashLoop led sev misbehaved lst).map fun p =>
    (p.1, Call.severity_read :: Call.get_misbehaved_read ::
      (p.2 ++ [Call.as_misconduct_level_read]),
      pol.as_misconduct_level mis sev)

end MisconductModule

/-- Modelled from the spec: the body of the staking ledger's
`slash_validator` is not among the provided sources (only its call sites
are).  Spec §6: it reduces the validator's balance by the given amount; the
reference scenario (spec §8) applies the slash to the free balance. -/
def apply_slash (free amount : Nat) : Nat := free - amount

/-- Modelled from the spec: the `Unresponsive` misconduct policy lives in
the `misconduct` submodule that is commented out in the sources
(`srml/slashing/src/lib.rs` line 29).  The spec fixes its behaviour at one
point: severity `Fraction` with denominator field `3` and numerator field
`200` maps to misconduct level `3` (spec §8 concrete scenario), and every
level lies in `{1, 2, 3, 4}` (spec §4.2); elsewhere the spec leaves the
thresholds policy-defined, so the model returns the lowest level `1`. -/
def unresponsive_as_misconduct_level (sev : Fraction) : Nat :=
  if sev.denominator = 3 ∧ sev.numerator = 200 then 3 else 1

/-- A concrete single-account test ledger: the ledger state is the account's
slashable balance, and `slash_validator` deducts the amount from it. -/
def natLedger : Ledger Nat Unit :=
  ⟨fun l _ => l, fun l _ amount => l - amount⟩

/-- A concrete policy whose severity has numerator field `0`. -/
def zeroNumeratorPolicy : MisconductPolicy Unit Unit :=
  ⟨fun s _ _ _ => s, fun _ => ⟨1, 0⟩, fun _ _ => 1⟩

/-- A concrete policy with the reference severity `Fraction{denominator: 3,
numerator: 200}` and the spec-modelled `Unresponsive` level mapping. -/
def unresponsivePolicy : MisconductPolicy Unit Unit :=
  ⟨fun s _ _ _ => s, fun _ => ⟨3, 200⟩, fun _ sev => unresponsive_as_misconduct_level sev⟩

/-- The reference policy extended with a one-validator era misbehaving set. -/
def unresponsiveEndPolicy : OnEndEraPolicy Unit Unit :=
  ⟨unresponsivePolicy, fun _ => [()]⟩

/-- An era-end policy whose severity has numerator field `0`. -/
def zeroNumeratorEndPolicy : OnEndEraPolicy Unit Unit :=
  ⟨⟨fun s _ _ _ => s, fun _ => ⟨2, 0⟩, fun _ _ => 2⟩, fun _ => [()]⟩

/-- Spec-side description of the per-validator loop, following the words of
spec §4.4 step 3 / claim C6: for each validator in the caller's order, fetch
the slashable balance, compute `(balance * severity.denominator) /
severity.numerator` (multiplication in native width) and call
`slash_validator`.  Total by construction; used to state what the source
loop does when the native division cannot panic. -/
def rollingSpecCalls {L A : Type} (led : Ledger L A) (sev : Fraction) :
    List A → L → L × List (Call A)
  | [], lst => (lst, [])
  | who :: rest, lst =>
    let sl := nativeMul (led.slashable_balance lst who) sev.denominator / sev.numerator
    let next := rollingSpecCalls led sev rest (led.slash_validator lst who sl)
    (next.1, Call.slashable_balance who :: Call.slash_validator who sl :: next.2)

theorem slashLoop_eq_spec {L A : Type} (led : Ledger L A) (sev : Fraction)
    (hn : sev.numerator ≠ 0) :
    ∀ (l : List A) (lst : L),
      slashLoop led sev l lst = some (rollingSpecCalls led sev l lst) := by
  intro l
  induction l with
  | nil => intro lst; simp [slashLoop, rollingSpecCalls]
  | cons who rest ih =>
    intro lst
    simp [slashLoop, rollingSpecCalls, nativeDiv, hn, ih]

theorem slashLoop_zero_numerator {L A : Type} (led : Ledger L A) (sev : Fraction)
    (hn : sev.numerator = 0) (who : A) (rest : List A) (lst : L) :
    slashLoop led sev (who :: rest) lst = none := by
  simp [slashLoop, nativeDiv, hn]

/-- `true` exactly on `Call.on_misconduct` events. -/
def callIsOnMisconduct {A : Type} : Call A → Bool
  | .on_misconduct _ _ _ => true
  | _ => false

theorem rollingSpecCalls_no_on_misconduct {L A : Type} (led : Ledger L A)
    (sev : Fraction) :
    ∀ (l : List A) (lst : L),
      ((rollingSpecCalls led sev l lst).2).any callIsOnMisconduct = false := by
  intro l
  induction l with
  | nil => intro lst; simp [rollingSpecCalls]
  | cons who rest ih =>
    intro lst
    simp [rollingSpecCalls, List.any_cons, callIsOnMisconduct, ih]

theorem slashLoop_no_on_misconduct {L A : Type} (led : Ledger L A) (sev : Fraction)
    (l : List A) (lst : L) (lst' : L) (calls : List (Call A))
    (h : slashLoop led sev l lst = some (lst', calls)) :
    calls.any callIsOnMisconduct = false := by
  by_cases hn : sev.numerator = 0
  · cases l with
    | nil =>
      simp [slashLoop] at h
      rw [h.2]
      simp
    | cons who rest =>
      rw [slashLoop_zero_numerator led sev hn who rest lst] at h
      exact absurd h (by simp)
  · rw [slashLoop_eq_spec led sev hn l lst] at h
    have hcalls : calls = (rollingSpecCalls led sev l lst).2 := by
      rw [Option.some_inj.mp h]
    rw [hcalls]
    exact rollingSpecCalls_no_on_misconduct led sev l lst

theorem slashLoop_ne_none_iff {L A : Type} (led : Ledger L A) (sev : Fraction)
    (l : List A) (lst : L) :
    slashLoop led sev l lst ≠ none ↔ (sev.numerator ≠ 0 ∨ l = []) := by
  constructor
  · intro h
    by_contra hc
    rw [not_or, not_not] at hc
    obtain ⟨hn, hl⟩ := hc
    cases l with
    | nil => exact hl rfl
    | cons who rest => exact h (slashLoop_zero_numerator led sev hn who rest lst)
  · intro h
    cases h with
    | inl hn => rw [slashLoop_eq_spec led sev hn l lst]; simp
    | inr hl => rw [hl]; simp [slashLoop]

/-!  ## Claim theorems  -/

/-- C1 counterexample: `MisconductModule::rolling_data` with a severity whose
numerator field is zero and a nonempty misbehaved set aborts with a
division-by-zero panic (modelled by `none`): not every core slashing entry
point is a total function over its domain. -/
theorem C1_counterexample :
    MisconductModule.rolling_data zeroNumeratorPolicy natLedger () 100 [()] 10 0 = none := by
  decide

/-- C1 amended: `StakingSlasher::slash` is total, but the orchestration entry
points are not: `rolling_data` and the era-end `slash` complete without
panicking precisely when the severity's numerator field is nonzero or the
misbehaving set is empty (a zero numerator with a nonempty set divides by
zero; native multiplication overflow wraps and does not abort). -/
theorem C1_entry_points_totality {S L A : Type} (pol : MisconductPolicy S A)
    (endPol : OnEndEraPolicy S A) (led : Ledger L A) (mis endMis : S) (lst : L)
    (misbehaved : List A) (validators session_index : Nat) :
    (MisconductModule.rolling_data pol led mis lst misbehaved validators session_index ≠ none ↔
      ((pol.severity (pol.on_misconduct mis misbehaved validators session_index)).numerator ≠ 0 ∨
        misbehaved = [])) ∧
    (MisconductModule.slash endPol led endMis lst ≠ none ↔
      ((endPol.severity endMis).numerator ≠ 0 ∨ endPol.get_misbehaved endMis = [])) := by
  constructor
  · rw [← slashLoop_ne_none_iff led
      (pol.severity (pol.on_misconduct mis misbehaved validators session_index)) misbehaved lst]
    simp [MisconductModule.rolling_data]
  · rw [← slashLoop_ne_none_iff led (endPol.severity endMis) (endPol.get_misbehaved endMis) lst]
    simp [MisconductModule.slash]

/-- C1 witness: with the reference severity (numerator field 200, nonzero)
and one misbehaved validator, `rolling_data` completes without panicking. -/
theorem C1_witness :
    MisconductModule.rolling_data unresponsivePolicy natLedger () 1250 [()] 30 0 ≠ none :=
  ((C1_entry_points_totality unresponsivePolicy unresponsiveEndPolicy natLedger
    () () 1250 [()] 30 0).1).mpr (Or.inl (by decide))

/-- C2 counterexample: with a severity whose numerator field is zero and one
misbehaved validator, the era-end `MisconductModule::slash` does not produce
the claimed zero-slash outcome — it aborts with a division-by-zero panic
(modelled by `none`), so no slash amount is ever passed to
`slash_validator`. -/
theorem C2_counterexample :
    MisconductModule.slash zeroNumeratorEndPolicy natLedger () 500 = none := by
  decide

/-- C2 amended: the zero-numerator no-penalty outcome holds only in
`StakingSlasher::slash`: for every balance and severity with numerator field
zero, the computed slash amount is 0 and `slash_validator` is called with 0;
in `rolling_data` and the era-end slash a zero numerator with a nonempty
misbehaving set panics instead. -/
theorem C2_zero_numerator_zero_slash {L A : Type} (led : Ledger L A) (lst : L)
    (who : A) (balance : Nat) (severity : Fraction)
    (hn : severity.numerator = 0) :
    StakingSlasher.slash_amount balance severity = 0 ∧
    StakingSlasher.slash led lst who severity = led.slash_validator lst who 0 := by
  constructor
  · simp [StakingSlasher.slash_amount, checked_div, hn, to_balance]
  · simp [StakingSlasher.slash, StakingSlasher.slash_amount, checked_div, hn, to_balance]

/-- C2 witness: at balance 1250 and severity with denominator field 3 and
numerator field 0, the computed slash amount is 0. -/
theorem C2_witness : StakingSlasher.slash_amount 1250 ⟨3, 0⟩ = 0 :=
  (C2_zero_numerator_zero_slash natLedger 0 () 1250 ⟨3, 0⟩ rfl).1

/-- C3: in the concrete reference scenario — slashable balance 1250 and
severity `Fraction` with denominator field 3 and numerator field 200 — the
slash amount computed by `StakingSlasher::slash` equals
`floor(1250 * 3 / 200) = 18`; applying that slash to a free balance of 1000
leaves 982; and the misconduct level returned for this severity is 3. -/
theorem C3_reference_scenario :
    StakingSlasher.slash_amount 1250 ⟨3, 200⟩ = 18 ∧
    apply_slash 1000 (StakingSlasher.slash_amount 1250 ⟨3, 200⟩) = 982 ∧
    unresponsive_as_misconduct_level ⟨3, 200⟩ = 3 := by
  decide

/-- C4: the multiplication of the widened balance by the widened denominator
field in `StakingSlasher::slash` is saturating: for every pair of
extended-precision (u128) values it yields a value of the domain (never a
fault), it equals the mathematical product whenever that fits, and it clamps
to the maximum representable extended value whenever the mathematical
product exceeds it (neither wrapping nor failing). -/
theorem C4_saturating_mul_clamps (a b : Nat) (ha : a ≤ u128Max) (hb : b ≤ u128Max) :
    saturating_mul a b ≤ u128Max ∧
    (a * b ≤ u128Max → saturating_mul a b = a * b) ∧
    (u128Max < a * b → saturating_mul a b = u128Max) :=
  ⟨min_le_right _ _, fun h => min_eq_left h, fun h => min_eq_right (le_of_lt h)⟩

/-- C4 witness: the concrete pair `2^127` and `8` overflows u128 and the
saturating multiplication clamps to the maximum extended value. -/
theorem C4_witness : saturating_mul (2 ^ 127) 8 = u128Max :=
  (C4_saturating_mul_clamps (2 ^ 127) 8 (by decide) (by decide)).2.2 (by decide)

/-- C5 counterexample: slash is not a non-decreasing function of the balance
for every severity with nonzero numerator field.  At severity
`Fraction{denominator: 2^63, numerator: 1}` the extended quotient for
balance 2 is `2^64`, and the narrowing conversion truncates it to 0, below
the slash `2^63` computed for the smaller balance 1. -/
theorem C5_counterexample :
    (1 : Nat) ≤ 2 ∧ (Fraction.mk (2 ^ 63) 1).numerator ≠ 0 ∧
    ¬ StakingSlasher.slash_amount 1 ⟨2 ^ 63, 1⟩ ≤
        StakingSlasher.slash_amount 2 ⟨2 ^ 63, 1⟩ := by
  decide

/-- C5 amended: for every fixed severity, the slash amount computed by
`StakingSlasher::slash` is non-decreasing in the balance over the native
64-bit range provided the extended quotient for the larger balance fits the
64-bit narrowing conversion; when the quotient reaches `2^64` the truncating
narrow step breaks monotonicity (see the counterexample). -/
theorem C5_monotone_in_balance (sev : Fraction) (b1 b2 : Nat)
    (hn : sev.numerator ≠ 0) (h12 : b1 ≤ b2) (hb2 : b2 < 2 ^ 64)
    (hq : saturating_mul b2 sev.denominator / sev.numerator < 2 ^ 64) :
    StakingSlasher.slash_amount b1 sev ≤ StakingSlasher.slash_amount b2 sev := by
  have hb1 : b1 < 2 ^ 64 := lt_of_le_of_lt h12 hb2
  have hd : saturating_mul b1 sev.denominator ≤ saturating_mul b2 sev.denominator :=
    min_le_min (Nat.mul_le_mul_right _ h12) (le_refl _)
  have hqle : saturating_mul b1 sev.denominator / sev.numerator ≤
      saturating_mul b2 sev.denominator / sev.numerator :=
    Nat.div_le_div_right hd
  have hq1 : saturating_mul b1 sev.denominator / sev.numerator < 2 ^ 64 :=
    lt_of_le_of_lt hqle hq
  simp only [StakingSlasher.slash_amount, to_u128, to_balance, checked_div,
    Nat.mod_eq_of_lt hb1, Nat.mod_eq_of_lt hb2, if_neg hn, Option.getD_some]
  rw [Nat.mod_eq_of_lt hq1, Nat.mod_eq_of_lt hq]
  exact hqle

/-- C5 witness: the reference severity and balances 1000 ≤ 1250 — the slash
amounts are 15 ≤ 18. -/
theorem C5_witness :
    StakingSlasher.slash_amount 1000 ⟨3, 200⟩ ≤ StakingSlasher.slash_amount 1250 ⟨3, 200⟩ :=
  C5_monotone_in_balance ⟨3, 200⟩ 1000 1250 (by decide) (by decide) (by decide) (by decide)

/-- C6 counterexample: with a severity whose numerator field is zero and two
misbehaved validators, `rolling_data` does not follow the claimed steps to
completion — the first per-validator division panics (modelled by `none`),
so no slash is issued and no misconduct level is returned. -/
theorem C6_counterexample :
    MisconductModule.rolling_data zeroNumeratorPolicy natLedger () 50 [(), ()] 5 1 = none := by
  decide

/-- C6 amended: provided the severity read after `on_misconduct` has a
nonzero numerator field, `rolling_data` follows exactly the claimed steps in
order: it calls `on_misconduct`, reads the severity once, then for each
validator in the caller's order fetches its slashable balance and calls
`slash_validator` with `(balance * denominator) / numerator` computed in
native u64 width (wrapping the product on overflow), and finally returns
`as_misconduct_level` of that severity; with a zero numerator the division
panics instead (see the counterexample). -/
theorem C6_rolling_data_steps {S L A : Type} (pol : MisconductPolicy S A)
    (led : Ledger L A) (mis : S) (lst : L) (misbehaved : List A)
    (validators session_index : Nat)
    (hn : (pol.severity (pol.on_misconduct mis misbehaved validators session_index)).numerator ≠ 0) :
    MisconductModule.rolling_data pol led mis lst misbehaved validators session_index =
      some ⟨pol.on_misconduct mis misbehaved validators session_index,
        (rollingSpecCalls led
          (pol.severity (pol.on_misconduct mis misbehaved validators session_index))
          misbehaved lst).1,
        Call.on_misconduct misbehaved validators session_index :: Call.severity_read ::
          ((rollingSpecCalls led
            (pol.severity (pol.on_misconduct mis misbehaved validators session_index))
            misbehaved lst).2 ++ [Call.as_misconduct_level_read]),
        pol.as_misconduct_level (pol.on_misconduct mis misbehaved validators session_index)
          (pol.severity (pol.on_misconduct mis misbehaved validators session_index))⟩ := by
  simp only [MisconductModule.rolling_data,
    slashLoop_eq_spec led _ hn misbehaved lst, Option.map_some']

/-- C6 witness: a concrete run — balance 100, severity with denominator
field 3 and numerator field 200 — produces the claimed trace, the slash
`(100 * 3) / 200 = 1`, the updated ledger 99, and level 3. -/
theorem C6_witness :
    MisconductModule.rolling_data unresponsivePolicy natLedger () 100 [()] 30 2 =
      some ⟨(), 99,
        [Call.on_misconduct [()] 30 2, Call.severity_read, Call.slashable_balance (),
          Call.slash_validator () 1, Call.as_misconduct_level_read], 3⟩ := by
  rw [C6_rolling_data_steps unresponsivePolicy natLedger () 100 [()] 30 2 (by decide)]
  decide

/-- C7: the widening of the native balance in `StakingSlasher::slash` routes
through a 64-bit intermediate: for every native balance the widened extended
value is strictly less than `2^64`, and every balance of at least `2^64` is
changed by the conversion (the precision loss is the truncation mod `2^64`
performed by the conversion, not absent). -/
theorem C7_widening_through_u64 (b : Nat) :
    to_u128 b < 2 ^ 64 ∧ (2 ^ 64 ≤ b → to_u128 b ≠ b) := by
  have hlt : to_u128 b < 2 ^ 64 := by unfold to_u128; omega
  refine ⟨hlt, fun hb heq => ?_⟩
  rw [heq] at hlt
  exact absurd hlt (not_lt.mpr hb)

/-- C7 witness: the native balance `2^64` is altered by the widening. -/
theorem C7_witness : to_u128 (2 ^ 64) ≠ 2 ^ 64 :=
  (C7_widening_through_u64 (2 ^ 64)).2 (le_refl _)

/-- C8: every value of the (spec-modelled) `as_misconduct_level` lies in
{1,2,3,4}; and for any plugged-in policy whose `as_misconduct_level` only
returns values in {1,2,3,4}, every completed call of `rolling_data` and of
the era-end `slash` returns a level in that range, because both return the
policy's classification of the severity unchanged. -/
theorem C8_misconduct_level_range :
    (∀ sev : Fraction, unresponsive_as_misconduct_level sev ∈ ([1, 2, 3, 4] : List Nat)) ∧
    (∀ {S L A : Type} (pol : MisconductPolicy S A) (led : Ledger L A),
      (∀ s sev, pol.as_misconduct_level s sev ∈ ([1, 2, 3, 4] : List Nat)) →
      ∀ (mis : S) (lst : L) (misbehaved : List A) (validators session_index : Nat)
        (out : RollingOutcome S L A),
        MisconductModule.rolling_data pol led mis lst misbehaved validators session_index =
          some out →
        out.level ∈ ([1, 2, 3, 4] : List Nat)) ∧
    (∀ {S L A : Type} (endPol : OnEndEraPolicy S A) (led : Ledger L A),
      (∀ s sev, endPol.as_misconduct_level s sev ∈ ([1, 2, 3, 4] : List Nat)) →
      ∀ (mis : S) (lst : L) (out : L × List (Call A) × Nat),
        MisconductModule.slash endPol led mis lst = some out →
        out.2.2 ∈ ([1, 2, 3, 4] : List Nat)) := by
  refine ⟨?_, ?_, ?_⟩
  · intro sev
    unfold unresponsive_as_misconduct_level
    split <;> simp
  · intro S L A pol led hpol mis lst misbehaved validators session_index out h
    simp only [MisconductModule.rolling_data, Option.map_eq_some'] at h
    obtain ⟨p, -, hout⟩ := h
    rw [← hout]
    exact hpol _ _
  · intro S L A endPol led hpol mis lst out h
    simp only [MisconductModule.slash, Option.map_eq_some'] at h
    obtain ⟨p, -, hout⟩ := h
    rw [← hout]
    exact hpol _ _

/-- C8 witness: the completed reference run of `rolling_data` returns level
3, which lies in {1,2,3,4}. -/
theorem C8_witness :
    (⟨(), 1232,
      [Call.on_misconduct [()] 30 0, Call.severity_read, Call.slashable_balance (),
        Call.slash_validator () 18, Call.as_misconduct_level_read], 3⟩ :
      RollingOutcome Unit Nat Unit).level ∈ ([1, 2, 3, 4] : List Nat) :=
  C8_misconduct_level_range.2.1 unresponsivePolicy natLedger
    (fun _ sev => C8_misconduct_level_range.1 sev) () 1250 [()] 30 0 _ (by decide)

/-- C9: `MisconductModule::era_data` performs only the policy update: its
result is exactly the state updated by `on_misconduct`, the unchanged ledger
state, and a collaborator-call trace holding the single `on_misconduct` call
— no `slashable_balance` read and no `slash_validator` call ever appears, so
no validator's balance is changed by `era_data`. -/
theorem C9_era_data_only_policy_update {S L A : Type} (pol : MisconductPolicy S A)
    (mis : S) (lst : L) (misbehaved : List A) (validators session_index : Nat) :
    MisconductModule.era_data pol mis lst misbehaved validators session_index =
      (pol.on_misconduct mis misbehaved validators session_index, lst,
        [Call.on_misconduct misbehaved validators session_index]) :=
  rfl

/-- C10: the era-end `MisconductModule::slash` takes the policy by shared
reference (the embedding accordingly produces no updated policy state), its
collaborator-call trace contains no `on_misconduct` call, and the returned
level is the classification of the severity read from the input policy
state — so the severity state is unchanged by the era-end workflow. -/
theorem C10_era_slash_reads_only {S L A : Type} (endPol : OnEndEraPolicy S A)
    (led : Ledger L A) (mis : S) (lst : L) (out : L × List (Call A) × Nat)
    (h : MisconductModule.slash endPol led mis lst = some out) :
    (out.2.1).any callIsOnMisconduct = false ∧
    out.2.2 = endPol.as_misconduct_level mis (endPol.severity mis) := by
  simp only [MisconductModule.slash, Option.map_eq_some'] at h
  obtain ⟨p, hp, hout⟩ := h
  rw [← hout]
  refine ⟨?_, rfl⟩
  simp [List.any_cons, callIsOnMisconduct, List.any_append,
    slashLoop_no_on_misconduct led (endPol.severity mis) (endPol.get_misbehaved mis)
      lst p.1 p.2 hp]

/-- C10 witness: the completed reference run of the era-end slash — its
trace holds no `on_misconduct` call and its level is the classification of
the input severity. -/
theorem C10_witness :
    (([Call.severity_read, Call.get_misbehaved_read, Call.slashable_balance (),
        Call.slash_validator () 18, Call.as_misconduct_level_read] :
      List (Call Unit)).any callIsOnMisconduct = false) ∧
    (3 : Nat) = unresponsiveEndPolicy.as_misconduct_level ()
      (unresponsiveEndPolicy.severity ()) :=
  C10_era_slash_reads_only unresponsiveEndPolicy natLedger () 1250
    (1232,
      [Call.severity_read, Call.get_misbehaved_read, Call.slashable_balance (),
        Call.slash_validator () 18, Call.as_misconduct_level_read], 3) (by decide)

end SubstrateSlashing
